import Mathlib

/-! Shallow embedding of `src/main.rs` of the solar-panel-exporter repository.

Rust strings are modelled as `List Char`; byte positions follow UTF-8 via
`Char.utf8Size`, matching Rust `str` byte indexing (`str::find` returns byte
indices, and slicing panics on out-of-order bounds or non-boundary indices).
The `f64` arithmetic of the numeric conversion is modelled exactly: IEEE-754
binary64 values are represented as exact rationals plus infinities and NaN,
and each operation rounds its exact rational result to 53-bit precision with
ties to even, as the hardware and Rust's correctly-rounded `f64` parser do. -/

deriving instance DecidableEq for Except

/-- Byte length of a character sequence, as Rust `str::len` counts it. -/
def utf8Len : List Char → Nat
  | [] => 0
  | c :: cs => c.utf8Size + utf8Len cs

/-- Worker for `findByte`: byte index of the first occurrence of `pat`,
with `b` bytes already consumed to the left. -/
def findByteAux (pat : List Char) : List Char → Nat → Option Nat
  | [], b => if pat.isPrefixOf [] then some b else none
  | c :: cs, b =>
    if pat.isPrefixOf (c :: cs) then some b else findByteAux pat cs (b + c.utf8Size)

/-- Model of Rust `line.find(pat)`: byte index of the first occurrence. -/
def findByte (line pat : List Char) : Option Nat := findByteAux pat line 0

/-- Model of Rust `line.contains(pat)`. -/
def containsSub (line pat : List Char) : Bool := (findByte line pat).isSome

/-- Drop the first `n` bytes of a string: `some` suffix when byte `n` is a
character boundary within bounds, `none` (a Rust slice panic) otherwise. -/
def dropToByte : List Char → Nat → Option (List Char)
  | s, 0 => some s
  | [], _ + 1 => none
  | c :: cs, n + 1 =>
    if c.utf8Size ≤ n + 1 then dropToByte cs (n + 1 - c.utf8Size) else none

/-- Take the first `n` bytes of a string: `some` prefix when byte `n` is a
character boundary within bounds, `none` (a Rust slice panic) otherwise. -/
def takeToByte : List Char → Nat → Option (List Char)
  | _, 0 => some []
  | [], _ + 1 => none
  | c :: cs, n + 1 =>
    if c.utf8Size ≤ n + 1 then (takeToByte cs (n + 1 - c.utf8Size)).map (c :: ·) else none

/-- Model of the Rust slice `s[a..b]`: `none` models the panic (when `a > b`,
a bound is out of range, or a bound is not a character boundary). -/
def sliceBytes (s : List Char) (a b : Nat) : Option (List Char) :=
  if a ≤ b then (dropToByte s a).bind (fun t => takeToByte t (b - a)) else none

/-- Remove one trailing carriage return, as Rust `str::lines` does for the
`\r\n` line terminator. -/
def stripCR (l : List Char) : List Char :=
  if l.getLast? = some '\r' then l.dropLast else l

/-- Worker for `rustLines`; `acc` is the current (reversed) unfinished line. -/
def linesAux : List Char → List Char → List (List Char)
  | [], acc => if acc.isEmpty then [] else [acc.reverse]
  | c :: cs, acc =>
    if c = '\n' then stripCR acc.reverse :: linesAux cs [] else linesAux cs (c :: acc)

/-- Model of Rust `str::lines`: split at `\n` (stripping a preceding `\r`),
with no empty line after a trailing terminator. -/
def rustLines (s : List Char) : List (List Char) := linesAux s []

/-- `GENERATE_START_MARKER` from `main.rs`. -/
def GENERATE_START_MARKER : List Char := "<!-- ここから発電量表示 -->".data

/-- `GENERATE_END_MARKER` from `main.rs`. -/
def GENERATE_END_MARKER : List Char := "<!-- ここまで発電量表示 -->".data

/-- `CONSUMPTION_START_MARKER` from `main.rs`. -/
def CONSUMPTION_START_MARKER : List Char := "<!-- ここから消費量表示 -->".data

/-- `CONSUMPTION_END_MARKER` from `main.rs`. -/
def CONSUMPTION_END_MARKER : List Char := "<!-- ここまで消費量表示 -->".data

/-- An exact rational with an explicit (positive) denominator.  Used to model
IEEE-754 binary64 values and exact intermediate results; all of its
operations reduce in the kernel, unlike Mathlib's `ℚ` whose arithmetic is
marked irreducible. -/
structure Frac where
  num : ℤ
  den : ℕ
  deriving DecidableEq

/-- Floor of a `Frac` (the denominator is positive in every use; `ℤ` division
is Euclidean division, which is floor division for positive divisors). -/
def Frac.floor (q : Frac) : ℤ := q.num / (q.den : ℤ)

/-- Round a `Frac` to the nearest integer, ties to even (IEEE-754 default). -/
def Frac.roundTiesEven (q : Frac) : ℤ :=
  let n := q.floor
  let r := q.num - n * (q.den : ℤ)
  if 2 * r < (q.den : ℤ) then n
  else if (q.den : ℤ) < 2 * r then n + 1
  else if n % 2 = 0 then n else n + 1

/-- Multiply a `Frac` by `2 ^ k`. -/
def Frac.mulPow2 (q : Frac) (k : ℤ) : Frac :=
  if 0 ≤ k then ⟨q.num * ((2 ^ k.toNat : ℕ) : ℤ), q.den⟩
  else ⟨q.num, q.den * 2 ^ (-k).toNat⟩

/-- Reduce a `Frac` to lowest terms (canonical form). -/
def Frac.norm (q : Frac) : Frac :=
  let g := Nat.gcd q.num.natAbs q.den
  if g = 0 then ⟨0, 1⟩ else ⟨q.num / (g : ℤ), q.den / g⟩

/-- `⌊log₂ (p / q)⌋` for positive naturals `p`, `q`, by fuelled doubling. -/
def floorLog2 : ℕ → ℕ → ℕ → ℤ
  | 0, _, _ => 0
  | fuel + 1, p, q =>
    if p < q then floorLog2 fuel (2 * p) q - 1
    else if p < 2 * q then 0
    else floorLog2 fuel p (2 * q) + 1

/-- An IEEE-754 binary64 value: a finite value (an exact rational, kept in
lowest terms by construction), a signed infinity, or NaN. -/
inductive F64 where
  | finite (q : Frac)
  | inf (neg : Bool)
  | nan
  deriving DecidableEq

/-- Correctly round an exact rational to binary64 (round to nearest, ties to
even, subnormals and overflow to infinity included). -/
def fracToF64 (x : Frac) : F64 :=
  if x.num = 0 then .finite ⟨0, 1⟩
  else
    let p := x.num.natAbs
    let e := floorLog2 (p + x.den) p x.den
    let k : ℤ := if -1022 ≤ e then 52 - e else 1074
    let m := Frac.roundTiesEven (Frac.mulPow2 ⟨(p : ℤ), x.den⟩ k)
    if 1024 ≤ e ∨ (e = 1023 ∧ m = 2 ^ 53) then .inf (x.num < 0)
    else
      let r : Frac := if 0 ≤ k then ⟨m, 2 ^ k.toNat⟩ else ⟨m * ((2 ^ (-k).toNat : ℕ) : ℤ), 1⟩
      .finite (Frac.norm (if x.num < 0 then ⟨-r.num, r.den⟩ else r))

/-- Numeric value of a digit string (most significant first). -/
def digitsToNat (ds : List Char) : ℕ :=
  ds.foldl (fun a c => 10 * a + (c.toNat - '0'.toNat)) 0

/-- Scale a `Frac` by `10 ^ e`. -/
def applyExp10 (x : Frac) (e : ℤ) : Frac :=
  if 0 ≤ e then ⟨x.num * ((10 ^ e.toNat : ℕ) : ℤ), x.den⟩
  else ⟨x.num, x.den * 10 ^ (-e).toNat⟩

/-- The optional exponent part of Rust's `f64` grammar: empty, or
`(e|E) sign? digit+` consuming the whole remainder. -/
def parseExpPart : List Char → Option ℤ
  | [] => some 0
  | c :: r =>
    if c = 'e' ∨ c = 'E' then
      match r with
      | '+' :: t =>
        let (ds, r3) := t.span Char.isDigit
        if ds.isEmpty ∨ r3 ≠ [] then none else some ((digitsToNat ds : ℕ) : ℤ)
      | '-' :: t =>
        let (ds, r3) := t.span Char.isDigit
        if ds.isEmpty ∨ r3 ≠ [] then none else some (-((digitsToNat ds : ℕ) : ℤ))
      | t =>
        let (ds, r3) := t.span Char.isDigit
        if ds.isEmpty ∨ r3 ≠ [] then none else some ((digitsToNat ds : ℕ) : ℤ)
    else none

/-- The (unsigned) number part of Rust's `f64` grammar:
`digit+ ('.' digit*)? exp?` or `'.' digit+ exp?`, as an exact rational. -/
def parseDecimal (s : List Char) : Option Frac :=
  let (ip, r1) := s.span Char.isDigit
  match r1 with
  | '.' :: r2 =>
    let (fp, r3) := r2.span Char.isDigit
    if ip.isEmpty ∧ fp.isEmpty then none
    else
      match parseExpPart r3 with
      | none => none
      | some e =>
        some (applyExp10
          ⟨((digitsToNat ip * 10 ^ fp.length + digitsToNat fp : ℕ) : ℤ), 10 ^ fp.length⟩ e)
  | _ =>
    if ip.isEmpty then none
    else
      match parseExpPart r1 with
      | none => none
      | some e => some (applyExp10 ⟨((digitsToNat ip : ℕ) : ℤ), 1⟩ e)

/-- Model of Rust `str::parse::<f64>`: optional sign, then case-insensitive
`inf` / `infinity` / `nan` or a decimal number, correctly rounded. -/
def parseF64 (s : List Char) : Option F64 :=
  let (neg, rest) : Bool × List Char :=
    match s with
    | '+' :: r => (false, r)
    | '-' :: r => (true, r)
    | r => (false, r)
  let low := rest.map Char.toLower
  if low = "inf".data ∨ low = "infinity".data then some (.inf neg)
  else if low = "nan".data then some .nan
  else
    match parseDecimal rest with
    | none => none
    | some x => some (fracToF64 (if neg then ⟨-x.num, x.den⟩ else x))

/-- IEEE-754 binary64 multiplication (round to nearest, ties to even). -/
def F64.mul : F64 → F64 → F64
  | .nan, _ => .nan
  | _, .nan => .nan
  | .inf s, .inf t => .inf (s != t)
  | .inf s, .finite q => if q.num = 0 then .nan else .inf (s != decide (q.num < 0))
  | .finite q, .inf t => if q.num = 0 then .nan else .inf (t != decide (q.num < 0))
  | .finite a, .finite b => fracToF64 ⟨a.num * b.num, a.den * b.den⟩

/-- Round a `Frac` to the nearest integer, ties away from zero. -/
def roundHalfAway (q : Frac) : ℤ :=
  if 0 ≤ q.num then Frac.floor ⟨2 * q.num + (q.den : ℤ), 2 * q.den⟩
  else -(Frac.floor ⟨(q.den : ℤ) - 2 * q.num, 2 * q.den⟩)

/-- Model of Rust `f64::round`: round half away from zero (exact on every
finite binary64, so no re-rounding is needed). -/
def F64.round : F64 → F64
  | .finite q => .finite ⟨roundHalfAway q, 1⟩
  | v => v

/-- Model of the Rust saturating cast `as i64`: truncate toward zero, clamp
to `[i64::MIN, i64::MAX]`, NaN to 0. -/
def F64.toI64 : F64 → ℤ
  | .nan => 0
  | .inf neg => if neg then -(2 ^ 63) else 2 ^ 63 - 1
  | .finite q =>
    let t : ℤ := if 0 ≤ q.num then Frac.floor q else -(Frac.floor ⟨-q.num, q.den⟩)
    if t < -(2 ^ 63) then -(2 ^ 63) else if 2 ^ 63 - 1 < t then 2 ^ 63 - 1 else t

/-- The numeric conversion applied to each extracted field in `parse`:
`v * 1000.0`, `f64::round`, `as i64` (the literal `1000.0` is exact). -/
def f64convert (v : F64) : ℤ := (F64.round (F64.mul v (.finite ⟨1000, 1⟩))).toI64

/-- `raw.parse::<f64>().map(|v| (v * 1000.0).round() as i64)` from `parse`. -/
def convert (raw : List Char) : Option ℤ := (parseF64 raw).map f64convert

/-- One field extraction of `parse`: the `lines().filter_map(..).next()`
pipeline.  For each line: skip it unless it contains `startM`; then `find`
the end marker (skipping the line when absent, per the `?` inside
`filter_map`); then slice `line[startM.len()..end]`.  `Except.error ()`
models a slice panic, `.ok none` an absent field. -/
def extractField (startM endM : List Char) : List (List Char) → Except Unit (Option (List Char))
  | [] => .ok none
  | l :: ls =>
    if containsSub l startM then
      match findByte l endM with
      | none => extractField startM endM ls
      | some e =>
        match sliceBytes l (utf8Len startM) e with
        | none => .error ()
        | some raw => .ok (some raw)
    else extractField startM endM ls

/-- Model of `fn parse(body: String) -> Option<(i64, i64)>`.  `Except.error ()`
models a panic (the byte-slice index panic reachable inside the scanner);
`.ok none` is `None`, `.ok (some (g, c))` is `Some((g, c))`. -/
def parse (body : List Char) : Except Unit (Option (ℤ × ℤ)) :=
  match extractField GENERATE_START_MARKER GENERATE_END_MARKER (rustLines body) with
  | .error e => .error e
  | .ok generate =>
    match extractField CONSUMPTION_START_MARKER CONSUMPTION_END_MARKER (rustLines body) with
    | .error e => .error e
    | .ok consumption =>
      match generate, consumption with
      | some g, some c =>
        match convert g with
        | none => .ok none
        | some gv =>
          match convert c with
          | none => .ok none
          | some cv => .ok (some (gv, cv))
      | _, _ => .ok none

/-- Terminal states of the retry loop in `fn metrics`. -/
inductive LoopResult where
  | got (v : ℤ × ℤ)
  | fetchErr
  | parsePanic
  | exhausted
  deriving DecidableEq

/-- The retry loop of `fn metrics`, unrolled on fuel (the loop makes at most
4 iterations, so fuel 4 is never exhausted).  `r` is `retry_count` at loop
entry; the transport `tr` models `get_body`, indexed by call number.
Returns the terminal state, the number of transport calls made, and the list
of backoff sleep durations (seconds) in order. -/
def metricsGo (tr : ℕ → Except Unit (List Char)) : ℕ → ℕ → LoopResult × ℕ × List ℕ
  | 0, _ => (.exhausted, 0, [])
  | fuel + 1, r =>
    match tr r with
    | .error _ => (.fetchErr, 1, [])
    | .ok body =>
      match parse body with
      | .error _ => (.parsePanic, 1, [])
      | .ok (some v) => (.got v, 1, [])
      | .ok none =>
        if r + 1 > 3 then (.exhausted, 1, [])
        else
          ((metricsGo tr fuel (r + 1)).1,
           (metricsGo tr fuel (r + 1)).2.1 + 1,
           2 ^ (r + 1) :: (metricsGo tr fuel (r + 1)).2.2)

/-- The retry loop of `fn metrics` started with `retry_count = 0`. -/
def metricsRun (tr : ℕ → Except Unit (List Char)) : LoopResult × ℕ × List ℕ :=
  metricsGo tr 4 0

/-- Decimal rendering of an `i64`, as `format!("{}")` prints it. -/
def intToChars (i : ℤ) : List Char :=
  if i < 0 then '-' :: Nat.toDigits 10 i.natAbs else Nat.toDigits 10 i.toNat

/-- The success response body of `fn metrics`: the six exposition lines
joined with `\n`. -/
def expositionBody (g c : ℤ) : List Char :=
  List.intercalate ['\n'] [
    "# HELP power_solar_generation_watts An amount of solar power generation in watts".data,
    "# TYPE power_solar_generation_watts gauge".data,
    "power_solar_generation_watts ".data ++ intToChars g,
    "# HELP power_consumption_watts An amount of power consumption in watts".data,
    "# TYPE power_consumption_watts gauge".data,
    "power_consumption_watts ".data ++ intToChars c]

/-- Model of `fn metrics`: the `(StatusCode, String)` response, with
`Except.error ()` propagating a `parse` panic. -/
def metrics (tr : ℕ → Except Unit (List Char)) : Except Unit (ℕ × List Char) :=
  match metricsRun tr with
  | (.fetchErr, _, _) => .ok (500, "failed to fetch metrics".data)
  | (.parsePanic, _, _) => .error ()
  | (.exhausted, _, _) => .ok (500, "failed to parse metrics".data)
  | (.got v, _, _) => .ok (200, expositionBody v.1 v.2)

/-- One line satisfies claim C1's premise for a marker pair: some occurrence
of the start token is followed, later in the same line, by an occurrence of
the end token, and the text strictly between them parses as a float. -/
def c1LineOk (sm em l : List Char) : Bool :=
  (List.range (l.length + 1)).any (fun i =>
    sm.isPrefixOf (l.drop i) &&
    (List.range (l.length + 1)).any (fun j =>
      decide (i + sm.length ≤ j) && em.isPrefixOf (l.drop j) &&
      (parseF64 ((l.drop (i + sm.length)).take (j - (i + sm.length)))).isSome))

/-- Claim C1's premise: each of the two marker pairs has such a line. -/
def c1Premise (body : List Char) : Bool :=
  ((rustLines body).any (fun l => c1LineOk GENERATE_START_MARKER GENERATE_END_MARKER l)) &&
  ((rustLines body).any (fun l => c1LineOk CONSUMPTION_START_MARKER CONSUMPTION_END_MARKER l))

/-- A payload satisfying C1's premise on which extraction is nevertheless
wrong: the generation start token is preceded by one extra character, so the
slice `line[36..end]` starts one byte into the line, yielding `">1.5"`. -/
def c1CexPayload : List Char :=
  "x<!-- ここから発電量表示 -->1.5<!-- ここまで発電量表示 -->\n<!-- ここから消費量表示 -->0.8<!-- ここまで消費量表示 -->".data

/-- A well-formed payload whose markers start their lines (values 1.5, 0.8). -/
def c1WitnessPayload : List Char :=
  "<!-- ここから発電量表示 -->1.5<!-- ここまで発電量表示 -->\n<!-- ここから消費量表示 -->0.8<!-- ここまで消費量表示 -->".data

/-- The end-to-end payload of claim C8 (values 1.500 and 0.800). -/
def goodPayload : List Char :=
  "<!-- ここから発電量表示 -->1.500<!-- ここまで発電量表示 -->\n<!-- ここから消費量表示 -->0.800<!-- ここまで消費量表示 -->".data

/-- A payload with no marker at all; `parse` fails on it without panicking. -/
def badPayload : List Char := "no markers here".data

/-- No generation start marker anywhere, and a consumption line whose end
token precedes its start token: the consumption slice `line[36..0]` panics. -/
def c4CexPayload : List Char :=
  "<!-- ここまで消費量表示 --><!-- ここから消費量表示 -->".data

/-- Generation start token on one line, generation end token only on a later
line, and a consumption line that makes the consumption slice panic. -/
def c5CexPayload : List Char :=
  "<!-- ここから発電量表示 -->\n<!-- ここまで発電量表示 -->\n<!-- ここまで消費量表示 --><!-- ここから消費量表示 -->".data

/-- A generation-marker payload for the amended C5: the generation tokens
never share a line, and the consumption line is well-formed. -/
def c5WitnessPayload : List Char :=
  "<!-- ここから発電量表示 -->\n<!-- ここまで発電量表示 -->\n<!-- ここから消費量表示 -->0.8<!-- ここまで消費量表示 -->".data

/-- The first line bearing the generation start token lacks the end token; a
later line carries the full generation pair. -/
def c6CexPayload : List Char :=
  "<!-- ここから発電量表示 -->\n<!-- ここから発電量表示 -->1.5<!-- ここまで発電量表示 -->\n<!-- ここから消費量表示 -->0.8<!-- ここまで消費量表示 -->".data

/-- A single line holding the generation end token before the generation
start token: `find` returns byte 0 and the slice `line[36..0]` panics. -/
def c9CexPayload : List Char :=
  "<!-- ここまで発電量表示 --><!-- ここから発電量表示 -->".data

/-- Payload with raw fields `NaN` (generation) and `inf` (consumption). -/
def c10PayloadA : List Char :=
  "<!-- ここから発電量表示 -->NaN<!-- ここまで発電量表示 -->\n<!-- ここから消費量表示 -->inf<!-- ここまで消費量表示 -->".data

/-- Payload with raw fields `-inf` (generation) and `nan` (consumption). -/
def c10PayloadB : List Char :=
  "<!-- ここから発電量表示 -->-inf<!-- ここまで発電量表示 -->\n<!-- ここから消費量表示 -->nan<!-- ここまで消費量表示 -->".data

/-- A transport that always succeeds with an unparseable payload. -/
def trAlwaysBad : ℕ → Except Unit (List Char) := fun _ => .ok badPayload

/-- A transport that fails parsing three times, then succeeds. -/
def trBadThenGood : ℕ → Except Unit (List Char) :=
  fun n => if n < 3 then .ok badPayload else .ok goodPayload

/-- A transport whose second call fails at the transport level. -/
def trFailSecond : ℕ → Except Unit (List Char) :=
  fun n => if n = 0 then .ok badPayload else .error ()

/-- A transport that always succeeds with the well-formed payload. -/
def trGood : ℕ → Except Unit (List Char) := fun _ => .ok goodPayload

/-- If the pattern starts the string, `findByteAux` answers at the current
offset. -/
lemma findByteAux_found (pat s : List Char) (b : ℕ) (h : pat.isPrefixOf s = true) :
    findByteAux pat s b = some b := by
  cases s with
  | nil => simp [findByteAux, h]
  | cons c cs => simp [findByteAux, h]

/-- `findByteAux` at offset `b` is the offset-0 answer shifted by `b`. -/
lemma findByteAux_shift (pat : List Char) :
    ∀ (s : List Char) (b : ℕ), findByteAux pat s b = (findByteAux pat s 0).map (fun k => b + k) := by
  intro s
  induction s with
  | nil =>
    intro b
    by_cases h : pat.isPrefixOf [] = true <;> simp [findByteAux, h]
  | cons c cs ih =>
    intro b
    by_cases h : pat.isPrefixOf (c :: cs) = true
    · simp [findByteAux, h]
    · rw [findByteAux, findByteAux, if_neg h, if_neg h, ih (b + c.utf8Size), ih (0 + c.utf8Size)]
      cases findByteAux pat cs 0 with
      | none => simp
      | some k => simp; omega

/-- Scanning `pre ++ rest` skips over `pre` entirely when no suffix of `pre`
(continued into `rest`) starts the pattern. -/
lemma findByteAux_append (pat pre rest : List Char)
    (h : ∀ i, i < pre.length → pat.isPrefixOf (pre.drop i ++ rest) = false) :
    ∀ b : ℕ, findByteAux pat (pre ++ rest) b = findByteAux pat rest (b + utf8Len pre) := by
  induction pre with
  | nil => intro b; simp [utf8Len]
  | cons p ps ih =>
    intro b
    have h0 : pat.isPrefixOf (p :: (ps ++ rest)) = false := by
      have := h 0 (by simp)
      simpa using this
    rw [List.cons_append, findByteAux, if_neg (by simp [h0])]
    rw [ih (fun i hi => by simpa using h (i + 1) (by simpa using hi)) (b + p.utf8Size)]
    have : b + p.utf8Size + utf8Len ps = b + utf8Len (p :: ps) := by
      simp [utf8Len]; omega
    rw [this]

/-- For a marker pair of equal length in which no nonempty suffix of the
start marker begins the end marker, the first occurrence of the end marker
in `startM ++ rest` lies entirely within `rest`. -/
lemma findByte_marker_append (sm em rest : List Char)
    (hlen : sm.length = em.length)
    (hchk : ∀ i, i < sm.length → (sm.drop i).isPrefixOf em = false) :
    findByte (sm ++ rest) em = (findByte rest em).map (fun k => utf8Len sm + k) := by
  unfold findByte
  rw [findByteAux_append em sm rest ?_ 0]
  · rw [findByteAux_shift em rest (0 + utf8Len sm)]
    simp
  · intro i hi
    rw [Bool.eq_false_iff]
    intro hpre
    have h1 : em <+: (sm.drop i ++ rest) := List.isPrefixOf_iff_prefix.mp hpre
    have h2 : sm.drop i <+: (sm.drop i ++ rest) := List.prefix_append _ _
    have h3 : sm.drop i <+: em :=
      List.prefix_of_prefix_length_le h2 h1 (by simp [List.length_drop]; omega)
    have h4 := List.isPrefixOf_iff_prefix.mpr h3
    rw [hchk i hi] at h4
    exact Bool.false_ne_true h4

/-- Dropping exactly the bytes of a leading block returns the remainder. -/
lemma dropToByte_utf8Len (xs r : List Char) : dropToByte (xs ++ r) (utf8Len xs) = some r := by
  induction xs with
  | nil => simp [utf8Len, dropToByte]
  | cons c cs ih =>
    obtain ⟨n, hn⟩ : ∃ n, c.utf8Size + utf8Len cs = n + 1 :=
      ⟨c.utf8Size + utf8Len cs - 1, by have := Char.utf8Size_pos c; omega⟩
    show dropToByte (c :: (cs ++ r)) (c.utf8Size + utf8Len cs) = some r
    rw [hn]
    simp only [dropToByte]
    rw [if_pos (by omega : c.utf8Size ≤ n + 1)]
    rw [show n + 1 - c.utf8Size = utf8Len cs by omega]
    exact ih

/-- Taking exactly the bytes of a leading block returns that block. -/
lemma takeToByte_utf8Len (xs r : List Char) : takeToByte (xs ++ r) (utf8Len xs) = some xs := by
  induction xs with
  | nil => simp [utf8Len, takeToByte]
  | cons c cs ih =>
    obtain ⟨n, hn⟩ : ∃ n, c.utf8Size + utf8Len cs = n + 1 :=
      ⟨c.utf8Size + utf8Len cs - 1, by have := Char.utf8Size_pos c; omega⟩
    show takeToByte (c :: (cs ++ r)) (c.utf8Size + utf8Len cs) = some (c :: cs)
    rw [hn]
    simp only [takeToByte]
    rw [if_pos (by omega : c.utf8Size ≤ n + 1)]
    rw [show n + 1 - c.utf8Size = utf8Len cs by omega]
    rw [ih]
    rfl

/-- Slicing out the bytes between a leading block and a trailing block. -/
lemma sliceBytes_append (sm g rest : List Char) :
    sliceBytes (sm ++ (g ++ rest)) (utf8Len sm) (utf8Len sm + utf8Len g) = some g := by
  unfold sliceBytes
  rw [if_pos (Nat.le_add_right _ _)]
  rw [dropToByte_utf8Len sm (g ++ rest)]
  simp only [Option.some_bind]
  rw [show utf8Len sm + utf8Len g - utf8Len sm = utf8Len g by omega]
  exact takeToByte_utf8Len g rest

/-- A line starting with the start marker satisfies the `contains` test. -/
lemma containsSub_leading_marker (sm rest : List Char) : containsSub (sm ++ rest) sm = true := by
  unfold containsSub findByte
  rw [findByteAux_found sm _ 0 (List.isPrefixOf_iff_prefix.mpr (List.prefix_append _ _))]
  rfl

/-- `extractField` ignores a leading block of lines without the start token. -/
lemma extractField_skipAll (sm em : List Char) (L1 rest : List (List Char))
    (h : ∀ l ∈ L1, containsSub l sm = false) :
    extractField sm em (L1 ++ rest) = extractField sm em rest := by
  induction L1 with
  | nil => rfl
  | cons l L ih =>
    rw [List.cons_append]
    simp only [extractField, h l (by simp)]
    exact ih (fun x hx => h x (by simp [hx]))

/-- `extractField` succeeds on a line made of the start marker, a body, the
end marker and a tail, provided the end marker's first occurrence in the
remainder is right after the body. -/
lemma extractField_cons_found (sm em g t : List Char) (L : List (List Char))
    (hlen : sm.length = em.length)
    (hchk : ∀ i, i < sm.length → (sm.drop i).isPrefixOf em = false)
    (hfind : findByte (g ++ (em ++ t)) em = some (utf8Len g)) :
    extractField sm em ((sm ++ (g ++ (em ++ t))) :: L) = .ok (some g) := by
  have hcont : containsSub (sm ++ (g ++ (em ++ t))) sm = true := containsSub_leading_marker _ _
  have hfind2 : findByte (sm ++ (g ++ (em ++ t))) em = some (utf8Len sm + utf8Len g) := by
    rw [findByte_marker_append sm em _ hlen hchk, hfind]
    rfl
  have hslice :
      sliceBytes (sm ++ (g ++ (em ++ t))) (utf8Len sm) (utf8Len sm + utf8Len g) = some g :=
    sliceBytes_append sm g (em ++ t)
  simp only [extractField, hcont, if_true, hfind2, hslice]

/-- A `contains` failure means `find` returns nothing. -/
lemma findByte_eq_none_of_not_contains (l p : List Char) (h : containsSub l p = false) :
    findByte l p = none := by
  unfold containsSub at h
  cases hf : findByte l p with
  | none => rfl
  | some k => rw [hf] at h; simp at h

/-- `extractField` yields an absent field over lines in which the start
token never appears together with the end token. -/
lemma extractField_none_of_no_pair (sm em : List Char) (L : List (List Char))
    (h : ∀ l ∈ L, containsSub l sm = false ∨ findByte l em = none) :
    extractField sm em L = .ok none := by
  induction L with
  | nil => rfl
  | cons l L ih =>
    have hrest : ∀ x ∈ L, containsSub x sm = false ∨ findByte x em = none :=
      fun x hx => h x (by simp [hx])
    rcases h l (by simp) with hl | hl
    · simp only [extractField, hl, Bool.false_eq_true, if_false]
      exact ih hrest
    · by_cases hc : containsSub l sm = true
      · simp only [extractField, hc, if_true, hl]
        exact ih hrest
      · simp only [extractField, hc, if_false]
        exact ih hrest

/-- When the generation field is absent and the consumption extraction does
not panic, `parse` returns `None`. -/
lemma parse_ok_none_left (body : List Char)
    (hgen : extractField GENERATE_START_MARKER GENERATE_END_MARKER (rustLines body) = .ok none)
    (hcons : extractField CONSUMPTION_START_MARKER CONSUMPTION_END_MARKER (rustLines body)
      ≠ .error ()) :
    parse body = .ok none := by
  unfold parse
  rw [hgen]
  cases hc : extractField CONSUMPTION_START_MARKER CONSUMPTION_END_MARKER (rustLines body) with
  | error e => cases e; exact absurd hc hcons
  | ok c => cases c <;> rfl

/-- When the consumption field is absent and the generation extraction does
not panic, `parse` returns `None`. -/
lemma parse_ok_none_right (body : List Char)
    (hcons : extractField CONSUMPTION_START_MARKER CONSUMPTION_END_MARKER (rustLines body)
      = .ok none)
    (hgen : extractField GENERATE_START_MARKER GENERATE_END_MARKER (rustLines body)
      ≠ .error ()) :
    parse body = .ok none := by
  unfold parse
  cases hg : extractField GENERATE_START_MARKER GENERATE_END_MARKER (rustLines body) with
  | error e => cases e; exact absurd hg hgen
  | ok g => rw [hcons]; cases g <;> rfl

/-- The generation markers have equal length. -/
lemma gen_marker_len : GENERATE_START_MARKER.length = GENERATE_END_MARKER.length := by decide

/-- No nonempty suffix of the generation start marker begins the generation
end marker (so the end marker cannot overlap a leading start marker). -/
lemma gen_marker_chk :
    ∀ i, i < GENERATE_START_MARKER.length →
      (GENERATE_START_MARKER.drop i).isPrefixOf GENERATE_END_MARKER = false := by decide

/-- The consumption markers have equal length. -/
lemma cons_marker_len : CONSUMPTION_START_MARKER.length = CONSUMPTION_END_MARKER.length := by
  decide

/-- No nonempty suffix of the consumption start marker begins the
consumption end marker. -/
lemma cons_marker_chk :
    ∀ i, i < CONSUMPTION_START_MARKER.length →
      (CONSUMPTION_START_MARKER.drop i).isPrefixOf CONSUMPTION_END_MARKER = false := by decide

/-- One unrolling of the retry loop (definitional). -/
lemma metricsGo_succ (tr : ℕ → Except Unit (List Char)) (fuel r : ℕ) :
    metricsGo tr (fuel + 1) r
      = match tr r with
        | .error _ => (.fetchErr, 1, [])
        | .ok body =>
          match parse body with
          | .error _ => (.parsePanic, 1, [])
          | .ok (some v) => (.got v, 1, [])
          | .ok none =>
            if r + 1 > 3 then (.exhausted, 1, [])
            else
              ((metricsGo tr fuel (r + 1)).1,
               (metricsGo tr fuel (r + 1)).2.1 + 1,
               2 ^ (r + 1) :: (metricsGo tr fuel (r + 1)).2.2) := rfl

/-- C1: the claim's premise holds of `c1CexPayload` (both pairs appear on a
line with a valid decimal strictly between start and end token), yet `parse`
returns `None` rather than `Some((1500, 800))`: the slice is taken relative
to the start of the line, not to the start token's occurrence. -/
theorem c1_cex :
    c1Premise c1CexPayload = true ∧ parse c1CexPayload = .ok none
      ∧ (Except.ok none : Except Unit (Option (ℤ × ℤ))) ≠ .ok (some (1500, 800)) :=
  ⟨rfl, rfl, by decide⟩

/-- C1 (amended): extraction is relative to the start of the line.  For every
payload in which, for each pair, the first line containing the start token
begins with that token and the end token's first occurrence follows the raw
text `g` (resp. `c`), and the raw texts parse as `f64`, `parse` returns the
converted pair (multiply by 1000.0 in binary64, round half away from zero,
cast to `i64`). -/
theorem c1_amended
    (body g c tg tc : List Char) (L1 R1 L2 R2 : List (List Char)) (vg vc : F64)
    (hg : rustLines body
      = L1 ++ (GENERATE_START_MARKER ++ (g ++ (GENERATE_END_MARKER ++ tg))) :: R1)
    (hL1 : ∀ l ∈ L1, containsSub l GENERATE_START_MARKER = false)
    (hfg : findByte (g ++ (GENERATE_END_MARKER ++ tg)) GENERATE_END_MARKER = some (utf8Len g))
    (hc2 : rustLines body
      = L2 ++ (CONSUMPTION_START_MARKER ++ (c ++ (CONSUMPTION_END_MARKER ++ tc))) :: R2)
    (hL2 : ∀ l ∈ L2, containsSub l CONSUMPTION_START_MARKER = false)
    (hfc : findByte (c ++ (CONSUMPTION_END_MARKER ++ tc)) CONSUMPTION_END_MARKER
      = some (utf8Len c))
    (hpg : parseF64 g = some vg) (hpc : parseF64 c = some vc) :
    parse body = .ok (some (f64convert vg, f64convert vc)) := by
  have hgen : extractField GENERATE_START_MARKER GENERATE_END_MARKER (rustLines body)
      = .ok (some g) := by
    rw [hg, extractField_skipAll _ _ _ _ hL1]
    exact extractField_cons_found _ _ _ _ _ gen_marker_len gen_marker_chk hfg
  have hcons : extractField CONSUMPTION_START_MARKER CONSUMPTION_END_MARKER (rustLines body)
      = .ok (some c) := by
    rw [hc2, extractField_skipAll _ _ _ _ hL2]
    exact extractField_cons_found _ _ _ _ _ cons_marker_len cons_marker_chk hfc
  simp only [parse, hgen, hcons, convert, hpg, hpc, Option.map_some']

/-- C1 witness: the amended theorem applied to the payload whose markers
start their two lines, giving generation 1500 and consumption 800. -/
theorem c1_witness : parse c1WitnessPayload = .ok (some (1500, 800)) := by
  have h := c1_amended c1WitnessPayload "1.5".data "0.8".data [] []
    ([] : List (List Char))
    [CONSUMPTION_START_MARKER ++ ("0.8".data ++ (CONSUMPTION_END_MARKER ++ []))]
    [GENERATE_START_MARKER ++ ("1.5".data ++ (GENERATE_END_MARKER ++ []))]
    ([] : List (List Char))
    (.finite ⟨3, 2⟩) (.finite ⟨3602879701896397, 4503599627370496⟩)
    (by decide) (by simp) (by decide) (by decide) (by decide) (by decide) rfl rfl
  exact h.trans (by decide)

/-- C2: with a never-failing transport whose payloads all fail to parse, the
transport is called exactly 4 times, the sleeps are 2, 4, 8 seconds, and the
outcome is parse exhaustion (a 500 response); and when parsing first
succeeds on attempt `j` (0-based, e.g. the 4th attempt `j = 3`), the fetch
succeeds immediately after exactly `j + 1` calls with only the `j` earlier
sleeps — no further transport calls or sleeps. -/
theorem c2_retry_backoff :
    (∀ (tr : ℕ → Except Unit (List Char)) (b : ℕ → List Char),
        (∀ n, n < 4 → tr n = .ok (b n)) →
        (∀ n, n < 4 → parse (b n) = .ok none) →
        metricsRun tr = (.exhausted, 4, [2, 4, 8])
          ∧ metrics tr = .ok (500, "failed to parse metrics".data))
    ∧ (∀ (tr : ℕ → Except Unit (List Char)) (b : ℕ → List Char) (v : ℤ × ℤ) (j : ℕ),
        j ≤ 3 →
        (∀ n, n < j → tr n = .ok (b n)) →
        (∀ n, n < j → parse (b n) = .ok none) →
        tr j = .ok (b j) → parse (b j) = .ok (some v) →
        metricsRun tr = (.got v, j + 1, (List.range j).map (fun i => 2 ^ (i + 1)))
          ∧ metrics tr = .ok (200, expositionBody v.1 v.2)) := by
  constructor
  · intro tr b htr hp
    have s3 : metricsGo tr 1 3 = (.exhausted, 1, []) := by
      rw [metricsGo_succ]
      simp [htr 3 (by omega), hp 3 (by omega)]
    have s2 : metricsGo tr 2 2 = (.exhausted, 2, [8]) := by
      rw [metricsGo_succ]
      simp [htr 2 (by omega), hp 2 (by omega), s3]
    have s1 : metricsGo tr 3 1 = (.exhausted, 3, [4, 8]) := by
      rw [metricsGo_succ]
      simp [htr 1 (by omega), hp 1 (by omega), s2]
    have s0 : metricsRun tr = (.exhausted, 4, [2, 4, 8]) := by
      unfold metricsRun
      rw [metricsGo_succ]
      simp [htr 0 (by omega), hp 0 (by omega), s1]
    refine ⟨s0, ?_⟩
    unfold metrics
    rw [s0]
  · intro tr b v j hj htr hp hj2 hpj
    have main : metricsRun tr = (.got v, j + 1, (List.range j).map (fun i => 2 ^ (i + 1))) := by
      interval_cases j
      · unfold metricsRun
        rw [metricsGo_succ]
        simp [hj2, hpj]
      · have s1 : metricsGo tr 3 1 = (.got v, 1, []) := by
          rw [metricsGo_succ]
          simp [hj2, hpj]
        unfold metricsRun
        rw [metricsGo_succ]
        simp [htr 0 (by omega), hp 0 (by omega), s1, List.range_succ]
      · have s2 : metricsGo tr 2 2 = (.got v, 1, []) := by
          rw [metricsGo_succ]
          simp [hj2, hpj]
        have s1 : metricsGo tr 3 1 = (.got v, 2, [4]) := by
          rw [metricsGo_succ]
          simp [htr 1 (by omega), hp 1 (by omega), s2]
        unfold metricsRun
        rw [metricsGo_succ]
        simp [htr 0 (by omega), hp 0 (by omega), s1, List.range_succ]
      · have s3 : metricsGo tr 1 3 = (.got v, 1, []) := by
          rw [metricsGo_succ]
          simp [hj2, hpj]
        have s2 : metricsGo tr 2 2 = (.got v, 2, [8]) := by
          rw [metricsGo_succ]
          simp [htr 2 (by omega), hp 2 (by omega), s3]
        have s1 : metricsGo tr 3 1 = (.got v, 3, [4, 8]) := by
          rw [metricsGo_succ]
          simp [htr 1 (by omega), hp 1 (by omega), s2]
        unfold metricsRun
        rw [metricsGo_succ]
        simp [htr 0 (by omega), hp 0 (by omega), s1, List.range_succ]
    refine ⟨main, ?_⟩
    unfold metrics
    rw [main]

/-- C2 witness: the retry theorem applied to an always-unparseable transport
and to one that succeeds on the 4th call. -/
theorem c2_witness :
    (metricsRun trAlwaysBad = (.exhausted, 4, [2, 4, 8])
        ∧ metrics trAlwaysBad = .ok (500, "failed to parse metrics".data))
      ∧ (metricsRun trBadThenGood = (.got (1500, 800), 4, [2, 4, 8])
        ∧ metrics trBadThenGood = .ok (200, expositionBody 1500 800)) := by
  constructor
  · exact c2_retry_backoff.1 trAlwaysBad (fun _ => badPayload)
      (fun n _ => rfl) (fun n _ => rfl)
  · exact c2_retry_backoff.2 trBadThenGood
      (fun n => if n < 3 then badPayload else goodPayload) (1500, 800) 3 (by omega)
      (fun n hn => by simp [trBadThenGood, hn])
      (fun n hn => by
        show parse (if n < 3 then badPayload else goodPayload) = .ok none
        rw [if_pos hn]
        rfl)
      rfl rfl

/-- C3: if the transport fails on attempt `n` (the first call or any retry,
each earlier attempt having been a parse failure), the fetch returns the
transport-failure outcome at once: exactly `n + 1` transport calls, only the
`n` earlier backoff sleeps (none after the failure), and a 500 response. -/
theorem c3_transport_failure (tr : ℕ → Except Unit (List Char)) (b : ℕ → List Char) (n : ℕ)
    (hn : n ≤ 3)
    (hok : ∀ m, m < n → tr m = .ok (b m))
    (hbad : ∀ m, m < n → parse (b m) = .ok none)
    (herr : tr n = .error ()) :
    metricsRun tr = (.fetchErr, n + 1, (List.range n).map (fun i => 2 ^ (i + 1)))
      ∧ metrics tr = .ok (500, "failed to fetch metrics".data) := by
  have main : metricsRun tr = (.fetchErr, n + 1, (List.range n).map (fun i => 2 ^ (i + 1))) := by
    interval_cases n
    · unfold metricsRun
      rw [metricsGo_succ]
      simp [herr]
    · have s1 : metricsGo tr 3 1 = (.fetchErr, 1, []) := by
        rw [metricsGo_succ]
        simp [herr]
      unfold metricsRun
      rw [metricsGo_succ]
      simp [hok 0 (by omega), hbad 0 (by omega), s1, List.range_succ]
    · have s2 : metricsGo tr 2 2 = (.fetchErr, 1, []) := by
        rw [metricsGo_succ]
        simp [herr]
      have s1 : metricsGo tr 3 1 = (.fetchErr, 2, [4]) := by
        rw [metricsGo_succ]
        simp [hok 1 (by omega), hbad 1 (by omega), s2]
      unfold metricsRun
      rw [metricsGo_succ]
      simp [hok 0 (by omega), hbad 0 (by omega), s1, List.range_succ]
    · have s3 : metricsGo tr 1 3 = (.fetchErr, 1, []) := by
        rw [metricsGo_succ]
        simp [herr]
      have s2 : metricsGo tr 2 2 = (.fetchErr, 2, [8]) := by
        rw [metricsGo_succ]
        simp [hok 2 (by omega), hbad 2 (by omega), s3]
      have s1 : metricsGo tr 3 1 = (.fetchErr, 3, [4, 8]) := by
        rw [metricsGo_succ]
        simp [hok 1 (by omega), hbad 1 (by omega), s2]
      unfold metricsRun
      rw [metricsGo_succ]
      simp [hok 0 (by omega), hbad 0 (by omega), s1, List.range_succ]
  refine ⟨main, ?_⟩
  unfold metrics
  rw [main]

/-- C3 witness: the transport-failure theorem applied to a transport whose
second call fails: 2 calls, a single 2-second sleep, then a 500. -/
theorem c3_witness :
    metricsRun trFailSecond = (.fetchErr, 2, [2])
      ∧ metrics trFailSecond = .ok (500, "failed to fetch metrics".data) :=
  c3_transport_failure trFailSecond (fun _ => badPayload) 1 (by omega)
    (fun m hm => by
      have h0 : m = 0 := by omega
      subst h0
      rfl)
    (fun m hm => rfl)
    rfl

/-- C4 counterexample: no line of `c4CexPayload` contains the generation
start marker, yet `parse` panics (on the consumption slice) instead of
returning `None`. -/
theorem c4_cex :
    (rustLines c4CexPayload).all (fun l => !containsSub l GENERATE_START_MARKER) = true
      ∧ parse c4CexPayload = .error () :=
  ⟨by decide, rfl⟩

/-- C4 (amended): a payload in which one pair's start token appears in no
line makes `parse` return `None`, provided the other pair's extraction does
not hit the byte-slice panic. -/
theorem c4_amended (body : List Char)
    (h : ((rustLines body).all (fun l => !containsSub l GENERATE_START_MARKER) = true
            ∧ extractField CONSUMPTION_START_MARKER CONSUMPTION_END_MARKER (rustLines body)
              ≠ .error ())
       ∨ ((rustLines body).all (fun l => !containsSub l CONSUMPTION_START_MARKER) = true
            ∧ extractField GENERATE_START_MARKER GENERATE_END_MARKER (rustLines body)
              ≠ .error ())) :
    parse body = .ok none := by
  rcases h with ⟨hall, hne⟩ | ⟨hall, hne⟩
  · have hnone : extractField GENERATE_START_MARKER GENERATE_END_MARKER (rustLines body)
        = .ok none := by
      apply extractField_none_of_no_pair
      intro l hl
      left
      have hb := List.all_eq_true.mp hall l hl
      simpa using hb
    exact parse_ok_none_left body hnone hne
  · have hnone : extractField CONSUMPTION_START_MARKER CONSUMPTION_END_MARKER (rustLines body)
        = .ok none := by
      apply extractField_none_of_no_pair
      intro l hl
      left
      have hb := List.all_eq_true.mp hall l hl
      simpa using hb
    exact parse_ok_none_right body hnone hne

/-- C4 witness: the amended theorem applied to a marker-free payload. -/
theorem c4_witness : parse badPayload = .ok none :=
  c4_amended badPayload (Or.inl ⟨by decide, by decide⟩)

/-- C5 counterexample: the generation start token appears on one line and
its end token only on a later line (no line holds both), yet `parse` panics
(on the consumption slice) instead of returning `None`. -/
theorem c5_cex :
    (rustLines c5CexPayload).any (fun l => containsSub l GENERATE_START_MARKER) = true
      ∧ (rustLines c5CexPayload).any (fun l => containsSub l GENERATE_END_MARKER) = true
      ∧ (rustLines c5CexPayload).all
          (fun l => !(containsSub l GENERATE_START_MARKER
            && containsSub l GENERATE_END_MARKER)) = true
      ∧ parse c5CexPayload = .error () :=
  ⟨by decide, by decide, by decide, rfl⟩

/-- C5 (amended): when no line contains both tokens of a pair (the start
token appearing on some line), that field is absent and `parse` returns
`None`, provided the other pair's extraction does not panic. -/
theorem c5_amended (body : List Char)
    (h : ((rustLines body).any (fun l => containsSub l GENERATE_START_MARKER) = true
            ∧ (rustLines body).all
                (fun l => !(containsSub l GENERATE_START_MARKER
                  && containsSub l GENERATE_END_MARKER)) = true
            ∧ extractField CONSUMPTION_START_MARKER CONSUMPTION_END_MARKER (rustLines body)
              ≠ .error ())
       ∨ ((rustLines body).any (fun l => containsSub l CONSUMPTION_START_MARKER) = true
            ∧ (rustLines body).all
                (fun l => !(containsSub l CONSUMPTION_START_MARKER
                  && containsSub l CONSUMPTION_END_MARKER)) = true
            ∧ extractField GENERATE_START_MARKER GENERATE_END_MARKER (rustLines body)
              ≠ .error ())) :
    parse body = .ok none := by
  rcases h with ⟨_, hall, hne⟩ | ⟨_, hall, hne⟩
  · have hnone : extractField GENERATE_START_MARKER GENERATE_END_MARKER (rustLines body)
        = .ok none := by
      apply extractField_none_of_no_pair
      intro l hl
      have hb := List.all_eq_true.mp hall l hl
      by_cases hc : containsSub l GENERATE_START_MARKER = true
      · right
        apply findByte_eq_none_of_not_contains
        simp only [hc, Bool.true_and, Bool.not_eq_true', Bool.not_eq_true] at hb
        exact hb
      · left
        simpa using hc
    exact parse_ok_none_left body hnone hne
  · have hnone : extractField CONSUMPTION_START_MARKER CONSUMPTION_END_MARKER (rustLines body)
        = .ok none := by
      apply extractField_none_of_no_pair
      intro l hl
      have hb := List.all_eq_true.mp hall l hl
      by_cases hc : containsSub l CONSUMPTION_START_MARKER = true
      · right
        apply findByte_eq_none_of_not_contains
        simp only [hc, Bool.true_and, Bool.not_eq_true', Bool.not_eq_true] at hb
        exact hb
      · left
        simpa using hc
    exact parse_ok_none_right body hnone hne

/-- C5 witness: the amended theorem on a payload whose generation tokens sit
on two different lines while the consumption line is well-formed. -/
theorem c5_witness : parse c5WitnessPayload = .ok none :=
  c5_amended c5WitnessPayload (Or.inl ⟨by decide, by decide, by decide⟩)

/-- C6 counterexample: the first line bearing the generation start token
lacks the end token, yet the field is taken from the later complete line:
`parse` succeeds instead of reporting the field absent. -/
theorem c6_cex :
    (rustLines c6CexPayload).head? = some GENERATE_START_MARKER
      ∧ containsSub GENERATE_START_MARKER GENERATE_START_MARKER = true
      ∧ findByte GENERATE_START_MARKER GENERATE_END_MARKER = none
      ∧ parse c6CexPayload = .ok (some (1500, 800)) :=
  ⟨by decide, by decide, by decide, rfl⟩

/-- C6 (amended): the scanner does not stop at the first line containing the
start token: a line whose end-token search fails is skipped entirely, and
scanning continues with the remaining lines. -/
theorem c6_amended (sm em l : List Char) (L : List (List Char))
    (h : findByte l em = none) :
    extractField sm em (l :: L) = extractField sm em L := by
  by_cases hc : containsSub l sm = true
  · simp [extractField, hc, h]
  · simp [extractField, hc]

/-- C6 witness: skipping the end-token-free first line of the C6 payload. -/
theorem c6_witness :
    extractField GENERATE_START_MARKER GENERATE_END_MARKER
        [GENERATE_START_MARKER,
         GENERATE_START_MARKER ++ ("1.5".data ++ GENERATE_END_MARKER)]
      = extractField GENERATE_START_MARKER GENERATE_END_MARKER
        [GENERATE_START_MARKER ++ ("1.5".data ++ GENERATE_END_MARKER)] :=
  c6_amended GENERATE_START_MARKER GENERATE_END_MARKER GENERATE_START_MARKER
    [GENERATE_START_MARKER ++ ("1.5".data ++ GENERATE_END_MARKER)] (by decide)

/-- C7: the conversion multiplies by 1000 in binary64 and rounds to nearest
with ties away from zero: `"1.2345"` yields 1235; the exact ties
`0.0625 * 1000 = 62.5` and `-62.5` land away from zero (63, -63); and the
embedded rounding sends every half-integer away from zero. -/
theorem c7_rounding :
    convert "1.2345".data = some 1235
      ∧ convert "0.0625".data = some 63
      ∧ convert "-0.0625".data = some (-63)
      ∧ (∀ n : ℕ, roundHalfAway ⟨2 * (n : ℤ) + 1, 2⟩ = (n : ℤ) + 1)
      ∧ (∀ n : ℕ, roundHalfAway ⟨-(2 * (n : ℤ) + 1), 2⟩ = -((n : ℤ) + 1)) := by
  refine ⟨rfl, rfl, rfl, ?_, ?_⟩
  · intro n
    simp only [roundHalfAway, Frac.floor]
    rw [if_pos (by omega : (0 : ℤ) ≤ 2 * (n : ℤ) + 1)]
    push_cast
    omega
  · intro n
    simp only [roundHalfAway, Frac.floor]
    rw [if_neg (by omega : ¬ (0 : ℤ) ≤ -(2 * (n : ℤ) + 1))]
    push_cast
    omega

set_option maxRecDepth 8000 in
/-- C8: on the two-line payload with generation `1.500` and consumption
`0.800`, the endpoint answers 200 with the six-line exposition body, whose
lines include `power_solar_generation_watts 1500` and
`power_consumption_watts 800` (integer values). -/
theorem c8_end_to_end :
    metrics trGood
        = .ok (200,
          ("# HELP power_solar_generation_watts An amount of solar power generation in watts\n"
            ++ "# TYPE power_solar_generation_watts gauge\n"
            ++ "power_solar_generation_watts 1500\n"
            ++ "# HELP power_consumption_watts An amount of power consumption in watts\n"
            ++ "# TYPE power_consumption_watts gauge\n"
            ++ "power_consumption_watts 800").data)
      ∧ "power_solar_generation_watts 1500".data ∈ rustLines (expositionBody 1500 800)
      ∧ "power_consumption_watts 800".data ∈ rustLines (expositionBody 1500 800) :=
  ⟨rfl, by decide, by decide⟩

/-- C9: `parse` is not total: on a line where the end marker's first
occurrence (byte 0) precedes the start marker, the slice `line[36..0]`
panics instead of producing `None`. -/
theorem c9_slice_panic :
    containsSub c9CexPayload GENERATE_START_MARKER = true
      ∧ findByte c9CexPayload GENERATE_END_MARKER = some 0
      ∧ 0 < utf8Len GENERATE_START_MARKER
      ∧ parse c9CexPayload = .error () :=
  ⟨by decide, by decide, by decide, rfl⟩

/-- C10: non-finite float text is accepted: `NaN` and `inf` (any case, with
optional sign) parse as floats, so `parse` returns `Some`, NaN converting to
0 and the infinities saturating to `i64::MAX` / `i64::MIN` under `as`. -/
theorem c10_nonfinite :
    parseF64 "NaN".data = some .nan
      ∧ parseF64 "inf".data = some (.inf false)
      ∧ parseF64 "-inf".data = some (.inf true)
      ∧ parse c10PayloadA = .ok (some (0, 9223372036854775807))
      ∧ parse c10PayloadB = .ok (some (-9223372036854775808, 0)) :=
  ⟨rfl, rfl, rfl, rfl, rfl⟩
